import Mathlib

/-!
# Verification of the intc_wrs control stack

A shallow embedding, in Lean 4, of the control-relevant parts of the
`intc_wrs` repository: the skid-steer mixer (`control/mixer.py`), the
WitMotion BLE telemetry decoder (`v3/input/blecn.py`), the safety/mode
logic (`v3/control/logic_controller.py`), the yaw calibration of the IMU
sensor (`v2/input/gps_imu_sensor.py`), and the Raspberry-Pi application
loop (`app_rpi.py`, `constants.py`, `drivers/`).

Python floats are modelled by rational numbers `ℚ`; all values the claims
touch are dyadic rationals that binary doubles represent exactly, so the
rational model computes the same answers the interpreter does.  Python's
`int(x)` (truncation toward zero), `round(x, 3)` (round half to even at
three decimals) and `%` on floats (result with the sign of the divisor)
are embedded explicitly below.
-/

/-! ## Python numeric primitives

`qmax`, `qmin` and `qabs` are Python's builtin `max`/`min`/`abs` on two
floats, written with an explicit comparison so that the kernel can
evaluate them on concrete rationals (`Mathlib`'s lattice `max` on `ℚ`
does not reduce); `qmax_eq_max` and friends bridge to the library
versions for the order-theoretic proofs. -/

def qmax (a b : ℚ) : ℚ := if a ≤ b then b else a

def qmin (a b : ℚ) : ℚ := if b ≤ a then b else a

def qabs (a : ℚ) : ℚ := if a < 0 then -a else a

/-- Python `int(x)` applied to a float: truncation toward zero. -/
def pytrunc (q : ℚ) : ℤ := if 0 ≤ q then ⌊q⌋ else ⌈q⌉

/-- Python `a % b` on floats (`b > 0`): the representative of `a` modulo
`b` lying in `[0, b)`, i.e. `a - b * ⌊a / b⌋`. -/
def pymod (a b : ℚ) : ℚ := a - b * ⌊a / b⌋

/-- Round to the nearest integer, ties to the even integer — the rounding
mode of Python's builtin `round`. -/
def roundHalfEven (x : ℚ) : ℤ :=
  let f := ⌊x⌋
  if x - f < 1/2 then f
  else if 1/2 < x - f then f + 1
  else if f % 2 = 0 then f else f + 1

/-- Python `round(x, 3)`: round half to even at the third decimal. -/
def round3 (x : ℚ) : ℚ := (roundHalfEven (x * 1000) : ℚ) / 1000

/-! ## `control/mixer.py` -/

/-- `mix_skid` from `control/mixer.py`: throttle/turn to left/right wheel
commands, normalised by `m = max(1.0, abs(l), abs(r))`. -/
def mix_skid (throttle turn : ℚ) : ℚ × ℚ :=
  let l := throttle + turn
  let r := throttle - turn
  let m := qmax 1 (qmax (qabs l) (qabs r))
  (l / m, r / m)

/-! ## `v3/input/blecn.py` — the WitMotion BLE telemetry decoder

`DeviceModel.onDataReceived` appends the notification bytes to
`TempBytes` and runs a scan loop: a leading byte other than `0x55` is
dropped; with fewer than 2 bytes it waits; a second byte other than
`0x61` drops only the sentinel; with fewer than 22 bytes it waits;
otherwise the 22-byte packet is decoded by `processData` (which never
looks at the two trailing checksum bytes) and exactly 22 bytes are
removed.  The loop is embedded with explicit fuel — one unit per
iteration, and every continuing iteration consumes at least one buffered
byte, so `buf.length` units always suffice (`decodeLoopFuel_of_le`). -/

/-- One decoded inertial sample: the nine values `processData` stores in
`deviceData` (accelerations in g, angular rates in deg/s, angles in deg,
each rounded to three decimals as by Python's `round(x, 3)`). -/
structure InertialSample where
  AccX : ℚ
  AccY : ℚ
  AccZ : ℚ
  AsX : ℚ
  AsY : ℚ
  AsZ : ℚ
  AngX : ℚ
  AngY : ℚ
  AngZ : ℚ
deriving DecidableEq, Repr

/-- `DeviceModel.getSignInt16`: reinterpret a 16-bit word as signed. -/
def getSignInt16 (num : ℕ) : ℤ :=
  if num ≥ 2 ^ 15 then (num : ℤ) - 2 ^ 16 else (num : ℤ)

/-- Little-endian 16-bit word at offsets `i+1, i` of the payload, as in
`Bytes[i+1] << 8 | Bytes[i]`. -/
def word16 (b : List ℕ) (i : ℕ) : ℕ := (b.getD (i+1) 0) <<< 8 ||| b.getD i 0

/-- `DeviceModel.processData`: decode the 20 payload bytes that follow the
`0x55 0x61` header (the last two, the checksum region, are never read). -/
def processData (b : List ℕ) : InertialSample :=
  { AccX := round3 ((getSignInt16 (word16 b 0) : ℚ) / 32768 * 16)
    AccY := round3 ((getSignInt16 (word16 b 2) : ℚ) / 32768 * 16)
    AccZ := round3 ((getSignInt16 (word16 b 4) : ℚ) / 32768 * 16)
    AsX := round3 ((getSignInt16 (word16 b 6) : ℚ) / 32768 * 2000)
    AsY := round3 ((getSignInt16 (word16 b 8) : ℚ) / 32768 * 2000)
    AsZ := round3 ((getSignInt16 (word16 b 10) : ℚ) / 32768 * 2000)
    AngX := round3 ((getSignInt16 (word16 b 12) : ℚ) / 32768 * 180)
    AngY := round3 ((getSignInt16 (word16 b 14) : ℚ) / 32768 * 180)
    AngZ := round3 ((getSignInt16 (word16 b 16) : ℚ) / 32768 * 180) }

/-- `FULL_PACKET_LENGTH` from `onDataReceived`. -/
def FULL_PACKET_LENGTH : ℕ := 22

/-- The `while TempBytes:` scan loop of `onDataReceived`, with explicit
fuel.  Returns the emitted samples in order and the remaining buffer. -/
def decodeLoopFuel : ℕ → List ℕ → List InertialSample × List ℕ
  | 0, buf => ([], buf)
  | fuel + 1, buf =>
    match buf with
    | [] => ([], [])
    | b :: rest =>
      if b ≠ 0x55 then decodeLoopFuel fuel rest
      else
        match rest with
        | [] => ([], [b])
        | t :: rest2 =>
          if t ≠ 0x61 then decodeLoopFuel fuel (t :: rest2)
          else if (b :: t :: rest2).length < FULL_PACKET_LENGTH then ([], b :: t :: rest2)
          else
            let packet := (b :: t :: rest2).take FULL_PACKET_LENGTH
            let s := processData (packet.drop 2)
            let out := decodeLoopFuel fuel ((b :: t :: rest2).drop FULL_PACKET_LENGTH)
            (s :: out.1, out.2)

/-- The scan loop run to completion on a buffer: `buf.length` iterations
always suffice because each continuing iteration removes a byte. -/
def decodeLoop (buf : List ℕ) : List InertialSample × List ℕ :=
  decodeLoopFuel buf.length buf

/-- One call of `onDataReceived`: the notification bytes are appended to
the persistent `TempBytes` buffer and the scan loop runs.  Returns the
samples handed to the callback and the new buffer contents. -/
def feed (buf data : List ℕ) : List InertialSample × List ℕ :=
  decodeLoop (buf ++ data)

/-! ## `v3/control/logic_controller.py`

`LogicController.execute_step` runs the safety check first; if it takes
over (`is_safe = False`) its values reach the actuators, otherwise the
mode branch (`MANUAL` uses the stored manual input, `AUTO` calls
`_run_autonomy_logic`, anything else commands zero).  The returned pair
is the `(final_throttle, final_steering)` handed to
`actuators.set_throttle` / `set_steering`.  `execute_step_with` exposes
the value returned by `_run_autonomy_logic` as an argument so that
theorems can quantify over what the autonomy extension point returns;
`execute_step` instantiates it with the actual stub, which returns
`(0, 0)`. -/

namespace LogicController

/-- The mutable fields of `LogicController` the control path reads:
`self.mode`, `self.manual_throttle`, `self.manual_steering`,
`self.lidar_data` (a list of `(angle_deg, distance_mm)` pairs). -/
structure State where
  mode : String
  manual_throttle : ℚ
  manual_steering : ℚ
  lidar_data : List (ℚ × ℚ)
deriving DecidableEq

/-- The body of the `for angle, dist_mm in self.lidar_data` loop of
`_get_frontal_obstacle_distance`: `none` plays the role of the initial
`min_dist = inf, found = False` state. -/
def obstacle_fold (angle_range max_dist_mm : ℚ) (acc : Option ℚ) (p : ℚ × ℚ) : Option ℚ :=
  if (0 ≤ p.1 ∧ p.1 ≤ angle_range) ∨ (360 - angle_range ≤ p.1 ∧ p.1 < 360) then
    if 0 < p.2 ∧ p.2 < max_dist_mm then
      match acc with
      | none => some p.2
      | some m => if p.2 < m then some p.2 else some m
    else acc
  else acc

/-- `LogicController._get_frontal_obstacle_distance`. -/
def get_frontal_obstacle_distance (st : State) (angle_range max_dist_m : ℚ) : Option ℚ :=
  if st.lidar_data = [] then none
  else
    (st.lidar_data.foldl (obstacle_fold angle_range (max_dist_m * 1000)) none).map
      (fun m => m / 1000)

/-- `LogicController._safety_check`: `(is_safe, throttle, steering)`. -/
def safety_check (st : State) : Bool × ℚ × ℚ :=
  match get_frontal_obstacle_distance st 30 (8/10) with
  | some _ => if 0 < st.manual_throttle then (false, 0, st.manual_steering) else (true, 0, 0)
  | none => (true, 0, 0)

/-- `LogicController._run_autonomy_logic` — the autonomy stub. -/
def run_autonomy_logic (_st : State) : ℚ × ℚ := (0, 0)

/-- `LogicController.execute_step` with the value of the
`_run_autonomy_logic()` call abstracted as `auto`. -/
def execute_step_with (st : State) (auto : ℚ × ℚ) : ℚ × ℚ :=
  let r := safety_check st
  if r.1 = false then (r.2.1, r.2.2)
  else if st.mode = "MANUAL" then (st.manual_throttle, st.manual_steering)
  else if st.mode = "AUTO" then auto
  else (0, 0)

/-- `LogicController.execute_step`: the `(final_throttle, final_steering)`
sent to the actuators. -/
def execute_step (st : State) : ℚ × ℚ :=
  execute_step_with st (run_autonomy_logic st)

/-- `LogicController.set_mode`: only `MANUAL` and `AUTO` are accepted;
any other request only logs a warning and leaves the mode unchanged. -/
def set_mode (st : State) (new_mode : String) : State :=
  if new_mode = "MANUAL" ∨ new_mode = "AUTO" then { st with mode := new_mode } else st

end LogicController

/-! ## `v2/input/gps_imu_sensor.py` — yaw calibration

`ImuSensor._notification_handler` publishes
`corrected_yaw = (raw_yaw + yaw_offset + 180) % 360 - 180` (line 113).
Python's float `%` with a positive divisor lands in `[0, 360)`, so the
published value lies in `[-180, 180)` — closed on the left, open on the
right. -/

/-- The corrected yaw published by `_notification_handler`. -/
def corrected_yaw (raw_yaw yaw_offset : ℚ) : ℚ :=
  pymod (raw_yaw + yaw_offset + 180) 360 - 180

/-- Written from the spec's words, for comparison: "corrected =
wrap180(raw + offset)" with "angles wrapped to (-180, 180]" — the unique
representative of `x` modulo 360 in the interval half-open at the left. -/
def wrap180_spec (x : ℚ) : ℚ := 180 - pymod (180 - x) 360

/-! ## `app_rpi.py`, `constants.py`, `drivers/`

`RpiRobotApp` keeps `speed`, `steer`, `rx`, `mode`, `running` and the
selected `input_source`.  `handle_event` mutates them; `loop_hw` runs the
control loop: reset steer in BUTTON mode, poll the input source (when one
is bound), write the servo every tick, write the motors only when the
rate gate `now - last_send >= period` is due, and on exit run `cleanup`
(motor stop, servo release + pigpio disconnect, keyboard close).  Real
time is abstracted: the per-tick poll results and the rate-gate verdicts
are supplied as functions of the tick index, and the loop gets explicit
fuel (the Python loop runs until `running` is false).  A `sys` event's
`mode` key is modelled as always present; no claim needs the missing-key
path. -/

def EVENT_SYS : String := "sys"

def EVENT_CMD : String := "cmd"

def EVENT_AXIS : String := "axis"

def ACTION_E_STOP : String := "e_stop"

def ACTION_SET_MODE : String := "set_mode"

def ACTION_INC_SPEED : String := "inc_speed"

def ACTION_DEC_SPEED : String := "dec_speed"

def ACTION_STEER_LEFT : String := "steer_left"

def ACTION_STEER_RIGHT : String := "steer_right"

def ACTION_STOP : String := "stop"

def MODE_BUTTON : String := "BUTTON"

def MODE_JOYSTICK : String := "JOYSTICK"

def MODE_SENSOR : String := "SENSOR"

def SERVO_MIN_US : ℚ := 1000

def SERVO_MAX_US : ℚ := 2000

def SERVO_MIN_DEG : ℚ := 0

def SERVO_MAX_DEG : ℚ := 180

def MAX_MOTOR_SPEED : ℤ := 50

/-- The normalized manual-input events of `constants.py` §6. -/
inductive Event where
  | sys (action : String) (mode : String)
  | cmd (action : String)
  | axis (x y rx : ℚ)
deriving DecidableEq

/-- The two concrete input sources `RpiRobotApp` can bind. -/
inductive InputSrc where
  | keyboard
  | joystick
deriving DecidableEq

/-- The state fields of `RpiRobotApp` that the control path touches. -/
structure AppState where
  speed : ℚ
  steer : ℚ
  rx : ℚ
  mode : String
  running : Bool
  input_source : Option InputSrc
deriving DecidableEq

/-- One write reaching an actuation sink or shutdown collaborator. -/
inductive SinkCmd where
  | servoPulse (us : ℤ)
  | motorWrite (payload : List ℤ)
  | pigpioStop
  | keyboardClose
deriving DecidableEq

/-- `RpiRobotApp.handle_event`. -/
def handle_event (st : AppState) (e : Event) : AppState :=
  match e with
  | Event.sys action mode =>
    if action = ACTION_E_STOP then { st with running := false }
    else if action = ACTION_SET_MODE then
      if ¬ st.mode = mode then
        let st1 := { st with mode := mode }
        if mode = MODE_BUTTON then { st1 with input_source := some InputSrc.keyboard }
        else if mode = MODE_JOYSTICK then { st1 with input_source := some InputSrc.joystick }
        else { st1 with input_source := none }
      else st
    else st
  | Event.cmd action =>
    if action = ACTION_INC_SPEED then { st with speed := qmin 1 (st.speed + 1/10) }
    else if action = ACTION_DEC_SPEED then { st with speed := qmax (-1) (st.speed - 1/10) }
    else if action = ACTION_STEER_LEFT then { st with steer := -1 }
    else if action = ACTION_STEER_RIGHT then { st with steer := 1 }
    else if action = ACTION_STOP then { st with speed := 0, steer := 0 }
    else st
  | Event.axis x y rx =>
    if st.mode = MODE_JOYSTICK then { st with speed := -y, steer := -x, rx := rx }
    else st

/-- `Servo.angle_to_us`: clamp the angle to `[0, 180]`, interpolate to
`[1000, 2000]` µs, truncate to an integer. -/
def angle_to_us (angle_deg : ℚ) : ℤ :=
  let angle := qmax SERVO_MIN_DEG (qmin SERVO_MAX_DEG angle_deg)
  pytrunc (SERVO_MIN_US +
    (angle - SERVO_MIN_DEG) * (SERVO_MAX_US - SERVO_MIN_US) / (SERVO_MAX_DEG - SERVO_MIN_DEG))

def imax (a b : ℤ) : ℤ := if a ≤ b then b else a

def imin (a b : ℤ) : ℤ := if b ≤ a then b else a

/-- `_to_byte`: `val & 0xFF` on a Python int, i.e. the residue in
`[0, 256)`. -/
def to_byte (v : ℤ) : ℤ := v % 256

/-- `MotorDriver.write_lr`: clamp to ±`MAX_MOTOR_SPEED`, map to channels
`RL, RR, FL, FR` (indices 0-3) with signs `-1, +1, +1, -1`, and send the
byte payload. -/
def write_lr (left_spd right_spd : ℤ) : SinkCmd :=
  let clamped_left := imax (-MAX_MOTOR_SPEED) (imin MAX_MOTOR_SPEED left_spd)
  let clamped_right := imax (-MAX_MOTOR_SPEED) (imin MAX_MOTOR_SPEED right_spd)
  SinkCmd.motorWrite
    [to_byte (-clamped_left), to_byte clamped_right,
     to_byte clamped_left, to_byte (-clamped_right)]

/-- `MotorDriver.stop`: all four channels zero. -/
def motor_stop_cmd : SinkCmd := SinkCmd.motorWrite [0, 0, 0, 0]

/-- `RpiRobotApp.cleanup`: `motor.stop()`, then `servo.cleanup()` (servo
pulse width 0, then `pi.stop()`), then `keyboard.close()`. -/
def cleanup_cmds : List SinkCmd :=
  [motor_stop_cmd, SinkCmd.servoPulse 0, SinkCmd.pigpioStop, SinkCmd.keyboardClose]

/-- The `if self.mode == MODE_BUTTON: self.steer = 0.0` reset at the top
of every tick. -/
def button_reset (st : AppState) : AppState :=
  if st.mode = MODE_BUTTON then { st with steer := 0 } else st

/-- The `if self.input_source: for e in self.input_source.poll(): ...`
block: `events` is what `poll()` returns this tick; nothing is polled
when no source is bound. -/
def poll_step (st : AppState) (events : List Event) : AppState :=
  match st.input_source with
  | some _ => events.foldl handle_event st
  | none => st

/-- One iteration of the `while self.running` body of `loop_hw`;
`send_motor` is the verdict of the drivetrain rate gate
`now - last_send >= period`. -/
def tick (st : AppState) (events : List Event) (send_motor : Bool) :
    AppState × List SinkCmd :=
  let st2 := poll_step (button_reset st) events
  let servo_cmd := SinkCmd.servoPulse (angle_to_us (90 + st2.rx * 80))
  if send_motor then
    (st2, [servo_cmd,
      write_lr (pytrunc ((mix_skid st2.speed st2.steer).1 * (MAX_MOTOR_SPEED : ℚ)))
               (pytrunc ((mix_skid st2.speed st2.steer).2 * (MAX_MOTOR_SPEED : ℚ)))])
  else (st2, [servo_cmd])

/-- The `while self.running` loop, with fuel: returns how many ticks ran
and the concatenated sink writes. -/
def loop_run : ℕ → AppState → (ℕ → List Event) → (ℕ → Bool) → ℕ × List SinkCmd
  | 0, _, _, _ => (0, [])
  | n + 1, st, evs, gate =>
    if st.running then
      let t := tick st (evs 0) (gate 0)
      let rest := loop_run n t.1 (fun i => evs (i + 1)) (fun i => gate (i + 1))
      (rest.1 + 1, t.2 ++ rest.2)
    else (0, [])

/-- `RpiRobotApp.loop_hw`: refuse to start when hardware init failed;
otherwise set `running := True`, run the loop, and always run `cleanup`
afterwards (the `finally` block). -/
def loop_hw (fuel : ℕ) (st : AppState) (evs : ℕ → List Event) (gate : ℕ → Bool)
    (hw_ok : Bool) : ℕ × List SinkCmd :=
  if hw_ok then
    let r := loop_run fuel { st with running := true } evs gate
    (r.1, r.2 ++ cleanup_cmds)
  else (0, [])

/-! ## Theorems -/

theorem qmax_eq_max (a b : ℚ) : qmax a b = max a b := by
  unfold qmax
  split <;> rename_i h
  · exact (max_eq_right h).symm
  · exact (max_eq_left (le_of_not_le h)).symm

theorem qmin_eq_min (a b : ℚ) : qmin a b = min a b := by
  unfold qmin
  split <;> rename_i h
  · exact (min_eq_right h).symm
  · exact (min_eq_left (le_of_not_le h)).symm

theorem qabs_eq_abs (a : ℚ) : qabs a = |a| := by
  unfold qabs
  split <;> rename_i h
  · exact (abs_of_neg h).symm
  · exact (abs_of_nonneg (le_of_not_lt h)).symm

theorem mix_skid_eq (throttle turn : ℚ) :
    mix_skid throttle turn =
      ((throttle + turn) / max 1 (max |throttle + turn| |throttle - turn|),
       (throttle - turn) / max 1 (max |throttle + turn| |throttle - turn|)) := by
  show ((throttle + turn) / qmax 1 (qmax (qabs (throttle + turn)) (qabs (throttle - turn))),
        (throttle - turn) / qmax 1 (qmax (qabs (throttle + turn)) (qabs (throttle - turn)))) = _
  rw [qabs_eq_abs, qabs_eq_abs, qmax_eq_max, qmax_eq_max]

theorem mix_skid_component_abs_le_one (throttle turn : ℚ) :
    |(mix_skid throttle turn).1| ≤ 1 ∧ |(mix_skid throttle turn).2| ≤ 1 := by
  rw [mix_skid_eq]
  have hm1 : (1:ℚ) ≤ max 1 (max |throttle + turn| |throttle - turn|) := le_max_left _ _
  have hm0 : (0:ℚ) < max 1 (max |throttle + turn| |throttle - turn|) := lt_of_lt_of_le one_pos hm1
  constructor
  · rw [abs_div, abs_of_pos hm0, div_le_one hm0]
    exact le_trans (le_max_left _ _) (le_max_right _ _)
  · rw [abs_div, abs_of_pos hm0, div_le_one hm0]
    exact le_trans (le_max_right _ _) (le_max_right _ _)

unseal Rat.add Rat.mul Rat.sub Rat.inv in
/-- Claim C3, counterexample: the claim asserts `mix(1.0, 0.0) = (1.0, 0.0)`,
but with zero turn both wheels get the full throttle: `mix_skid 1 0 = (1, 1)`. -/
theorem mixer_claimed_example_false :
    mix_skid 1 0 = (1, 1) ∧ mix_skid 1 0 ≠ (1, 0) := by
  constructor <;> decide

unseal Rat.add Rat.mul Rat.sub Rat.inv in
/-- Claim C3 (amended: `mix(1.0, 0.0) = (1.0, 1.0)`, not `(1.0, 0.0)`): for
throttle, turn ∈ [-1,1], `mix_skid` returns `(l/m, r/m)` with
`l = throttle + turn`, `r = throttle - turn`, `m = max(1,|l|,|r|)`; both
components lie in [-1,1]; when `|l| ≤ 1` and `|r| ≤ 1` the pair `(l, r)` is
returned unmodified; and `mix(0.5,0.5) = (1,0)`, `mix(1,0) = (1,1)`,
`mix(0.3,-0.3) = (0,0.6)`. -/
theorem mixer_contract (throttle turn : ℚ)
    (hth : -1 ≤ throttle ∧ throttle ≤ 1) (htu : -1 ≤ turn ∧ turn ≤ 1) :
    mix_skid throttle turn =
      ((throttle + turn) / max 1 (max |throttle + turn| |throttle - turn|),
       (throttle - turn) / max 1 (max |throttle + turn| |throttle - turn|)) ∧
    (-1 ≤ (mix_skid throttle turn).1 ∧ (mix_skid throttle turn).1 ≤ 1) ∧
    (-1 ≤ (mix_skid throttle turn).2 ∧ (mix_skid throttle turn).2 ≤ 1) ∧
    (|throttle + turn| ≤ 1 → |throttle - turn| ≤ 1 →
      mix_skid throttle turn = (throttle + turn, throttle - turn)) ∧
    mix_skid (1/2) (1/2) = (1, 0) ∧
    mix_skid 1 0 = (1, 1) ∧
    mix_skid (3/10) (-(3/10)) = (0, 3/5) := by
  obtain ⟨h1, h2⟩ := mix_skid_component_abs_le_one throttle turn
  refine ⟨mix_skid_eq throttle turn, abs_le.mp h1, abs_le.mp h2, ?_,
    by decide, by decide, by decide⟩
  intro hl hr
  have hm : max 1 (max |throttle + turn| |throttle - turn|) = 1 :=
    max_eq_left (max_le hl hr)
  rw [mix_skid_eq, hm]
  simp

/-- Witness for the amended C3 at throttle = 1/2, turn = 1/2. -/
theorem mixer_contract_witness :
    mix_skid (1/2) (1/2) = (1, 0) :=
  (mixer_contract (1/2) (1/2) (by norm_num) (by norm_num)).2.2.2.2.1

theorem dlf_skip (fuel b : ℕ) (rest : List ℕ) (hb : ¬ b = 0x55) :
    decodeLoopFuel (fuel + 1) (b :: rest) = decodeLoopFuel fuel rest := by
  simp [decodeLoopFuel, hb]

theorem dlf_badtype (fuel t : ℕ) (rest2 : List ℕ) (ht : ¬ t = 0x61) :
    decodeLoopFuel (fuel + 1) (0x55 :: t :: rest2) = decodeLoopFuel fuel (t :: rest2) := by
  simp [decodeLoopFuel, ht]

theorem dlf_short (fuel : ℕ) (rest2 : List ℕ) (h : rest2.length + 2 < 22) :
    decodeLoopFuel (fuel + 1) (0x55 :: 0x61 :: rest2) = ([], 0x55 :: 0x61 :: rest2) := by
  have h' : rest2.length + 1 + 1 < FULL_PACKET_LENGTH := by unfold FULL_PACKET_LENGTH; omega
  simp [decodeLoopFuel, h']

theorem dlf_emit (fuel : ℕ) (rest2 : List ℕ) (h : ¬ rest2.length + 2 < 22) :
    decodeLoopFuel (fuel + 1) (0x55 :: 0x61 :: rest2) =
      (processData (((0x55 :: 0x61 :: rest2).take 22).drop 2) ::
        (decodeLoopFuel fuel ((0x55 :: 0x61 :: rest2).drop 22)).1,
       (decodeLoopFuel fuel ((0x55 :: 0x61 :: rest2).drop 22)).2) := by
  have h' : ¬ rest2.length + 1 + 1 < FULL_PACKET_LENGTH := by unfold FULL_PACKET_LENGTH; omega
  simp [decodeLoopFuel, h', FULL_PACKET_LENGTH]
  omega

theorem decodeLoopFuel_of_le (fuel : ℕ) : ∀ buf : List ℕ, buf.length ≤ fuel →
    decodeLoopFuel fuel buf = decodeLoop buf := by
  induction fuel using Nat.strong_induction_on with
  | _ fuel ih =>
    intro buf hle
    match fuel with
    | 0 =>
      have hbuf : buf = [] := List.length_eq_zero.mp (Nat.le_zero.mp hle)
      subst hbuf; rfl
    | f + 1 =>
      match buf with
      | [] => rfl
      | b :: rest =>
        have hr : rest.length ≤ f := by
          simp only [List.length_cons] at hle; omega
        by_cases hb : b = 0x55
        · subst hb
          match rest with
          | [] => rfl
          | t :: rest2 =>
            by_cases ht : t = 0x61
            · subst ht
              by_cases hlen : rest2.length + 2 < 22
              · rw [dlf_short f rest2 hlen]
                show _ = decodeLoopFuel ((0x55 :: 0x61 :: rest2).length) _
                rw [show (0x55 :: 0x61 :: rest2).length = (rest2.length + 1) + 1 from by
                      simp,
                    dlf_short (rest2.length + 1) rest2 hlen]
              · have hd : ((0x55 :: 0x61 :: rest2).drop 22).length = rest2.length + 2 - 22 := by
                  simp [List.length_drop]
                rw [dlf_emit f rest2 hlen]
                show _ = decodeLoopFuel ((0x55 :: 0x61 :: rest2).length) _
                rw [show (0x55 :: 0x61 :: rest2).length = (rest2.length + 1) + 1 from by
                      simp,
                    dlf_emit (rest2.length + 1) rest2 hlen]
                have hlef : rest2.length + 1 ≤ f := by
                  simp only [List.length_cons] at hle; omega
                have e1 := ih f (Nat.lt_succ_self f) ((0x55 :: 0x61 :: rest2).drop 22)
                  (by rw [hd]; omega)
                have e2 := ih (rest2.length + 1) (by omega) ((0x55 :: 0x61 :: rest2).drop 22)
                  (by rw [hd]; omega)
                rw [e1, e2]
            · rw [dlf_badtype f t rest2 ht]
              show _ = decodeLoopFuel ((0x55 :: t :: rest2).length) _
              rw [show (0x55 :: t :: rest2).length = (t :: rest2).length + 1 from by simp,
                  dlf_badtype ((t :: rest2).length) t rest2 ht]
              exact ih f (Nat.lt_succ_self f) (t :: rest2) hr
        · rw [dlf_skip f b rest hb]
          show _ = decodeLoopFuel ((b :: rest).length) _
          rw [show (b :: rest).length = rest.length + 1 from by simp,
              dlf_skip rest.length b rest hb]
          exact ih f (Nat.lt_succ_self f) rest hr

/-! Step equations for the fully-run loop `decodeLoop`, one per branch of
the `while` body in `onDataReceived`. -/

theorem decodeLoop_nil : decodeLoop [] = ([], []) := rfl

theorem decodeLoop_skip (b : ℕ) (rest : List ℕ) (hb : ¬ b = 0x55) :
    decodeLoop (b :: rest) = decodeLoop rest := by
  show decodeLoopFuel (rest.length + 1) (b :: rest) = _
  rw [dlf_skip rest.length b rest hb]
  rfl

theorem decodeLoop_one : decodeLoop [0x55] = ([], [0x55]) := rfl

theorem decodeLoop_badtype (t : ℕ) (rest2 : List ℕ) (ht : ¬ t = 0x61) :
    decodeLoop (0x55 :: t :: rest2) = decodeLoop (t :: rest2) := by
  show decodeLoopFuel ((t :: rest2).length + 1) (0x55 :: t :: rest2) = _
  rw [show (t :: rest2).length + 1 = rest2.length + 1 + 1 from by simp,
      dlf_badtype (rest2.length + 1) t rest2 ht]
  rfl

theorem decodeLoop_short (rest2 : List ℕ) (h : rest2.length + 2 < 22) :
    decodeLoop (0x55 :: 0x61 :: rest2) = ([], 0x55 :: 0x61 :: rest2) := by
  show decodeLoopFuel (rest2.length + 1 + 1) (0x55 :: 0x61 :: rest2) = _
  rw [dlf_short (rest2.length + 1) rest2 h]

theorem decodeLoop_emit (rest2 : List ℕ) (h : ¬ rest2.length + 2 < 22) :
    decodeLoop (0x55 :: 0x61 :: rest2) =
      (processData (((0x55 :: 0x61 :: rest2).take 22).drop 2) ::
        (decodeLoop ((0x55 :: 0x61 :: rest2).drop 22)).1,
       (decodeLoop ((0x55 :: 0x61 :: rest2).drop 22)).2) := by
  show decodeLoopFuel (rest2.length + 1 + 1) (0x55 :: 0x61 :: rest2) = _
  rw [dlf_emit (rest2.length + 1) rest2 h,
      decodeLoopFuel_of_le (rest2.length + 1) ((0x55 :: 0x61 :: rest2).drop 22)
        (by simp [List.length_drop]; omega)]

/-- Feeding `ext` after `l` continues exactly where scanning `l` alone
stopped: the samples concatenate and the remainder is that of the second
run.  This is the state-persistence property of `onDataReceived`. -/
theorem decodeLoop_append_aux : ∀ (n : ℕ) (l ext : List ℕ), l.length ≤ n →
    decodeLoop (l ++ ext) =
      ((decodeLoop l).1 ++ (decodeLoop ((decodeLoop l).2 ++ ext)).1,
       (decodeLoop ((decodeLoop l).2 ++ ext)).2) := by
  intro n
  induction n using Nat.strong_induction_on with
  | _ n ih =>
    intro l ext hle
    match l with
    | [] => simp [decodeLoop_nil]
    | b :: rest =>
      have hr : rest.length < n := by
        simp only [List.length_cons] at hle; omega
      by_cases hb : b = 0x55
      · subst hb
        match rest with
        | [] => simp [decodeLoop_one]
        | t :: rest2 =>
          by_cases ht : t = 0x61
          · subst ht
            by_cases hlen : rest2.length + 2 < 22
            · rw [decodeLoop_short rest2 hlen]
              simp
            · have hlen' : ¬ (rest2 ++ ext).length + 2 < 22 := by
                simp only [List.length_append]; omega
              have htake : ((0x55 :: 0x61 :: rest2) ++ ext).take 22 =
                  (0x55 :: 0x61 :: rest2).take 22 :=
                List.take_append_of_le_length (by simp; omega)
              have hdrop : ((0x55 :: 0x61 :: rest2) ++ ext).drop 22 =
                  (0x55 :: 0x61 :: rest2).drop 22 ++ ext :=
                List.drop_append_of_le_length (by simp; omega)
              have hstep := decodeLoop_emit (rest2 ++ ext) hlen'
              rw [show (0x55 : ℕ) :: 0x61 :: (rest2 ++ ext) =
                    (0x55 :: 0x61 :: rest2) ++ ext from rfl, htake, hdrop] at hstep
              rw [hstep, decodeLoop_emit rest2 hlen]
              have hm : ((0x55 :: 0x61 :: rest2).drop 22).length < n := by
                simp only [List.length_drop, List.length_cons]
                simp only [List.length_cons] at hle
                omega
              rw [ih _ hm ((0x55 :: 0x61 :: rest2).drop 22) ext (le_refl _)]
              simp
          · have hstep : decodeLoop ((0x55 :: t :: rest2) ++ ext) =
                decodeLoop ((t :: rest2) ++ ext) := by
              simpa using decodeLoop_badtype t (rest2 ++ ext) ht
            rw [hstep, decodeLoop_badtype t rest2 ht]
            exact ih _ hr (t :: rest2) ext (le_refl _)
      · have hstep : decodeLoop ((b :: rest) ++ ext) = decodeLoop (rest ++ ext) := by
          simpa using decodeLoop_skip b (rest ++ ext) hb
        rw [hstep, decodeLoop_skip b rest hb]
        exact ih _ hr rest ext (le_refl _)

theorem decodeLoop_append (l ext : List ℕ) :
    decodeLoop (l ++ ext) =
      ((decodeLoop l).1 ++ (decodeLoop ((decodeLoop l).2 ++ ext)).1,
       (decodeLoop ((decodeLoop l).2 ++ ext)).2) :=
  decodeLoop_append_aux l.length l ext (le_refl _)

theorem getD_take_eq (l : List ℕ) (i n : ℕ) (h : i < n) :
    (l.take n).getD i 0 = l.getD i 0 := by
  simp [List.getD_eq_getElem?_getD, List.getElem?_take_of_lt h]

theorem word16_take (b : List ℕ) (i n : ℕ) (h : i + 1 < n) :
    word16 (b.take n) i = word16 b i := by
  unfold word16
  rw [getD_take_eq b (i+1) n h, getD_take_eq b i n (by omega)]

/-- `processData` reads only payload offsets 0–17; the checksum region
(offsets 18–19 of its 20-byte argument) is never consulted. -/
theorem processData_take (b : List ℕ) : processData (b.take 18) = processData b := by
  unfold processData
  rw [word16_take b 0 18 (by omega), word16_take b 2 18 (by omega),
      word16_take b 4 18 (by omega), word16_take b 6 18 (by omega),
      word16_take b 8 18 (by omega), word16_take b 10 18 (by omega),
      word16_take b 12 18 (by omega), word16_take b 14 18 (by omega),
      word16_take b 16 18 (by omega)]

theorem processData_eq_of_take18 (b1 b2 : List ℕ) (h : b1.take 18 = b2.take 18) :
    processData b1 = processData b2 := by
  rw [← processData_take b1, h, processData_take b2]

/-- A complete buffered frame `0x55 0x61 <20 payload bytes>` decodes to
exactly one sample and empties the buffer. -/
theorem decodeLoop_frame (payload : List ℕ) (h : payload.length = 20) :
    decodeLoop (0x55 :: 0x61 :: payload) = ([processData payload], []) := by
  have h2 : ¬ payload.length + 2 < 22 := by omega
  rw [decodeLoop_emit payload h2]
  have htake : (0x55 :: 0x61 :: payload).take 22 = 0x55 :: 0x61 :: payload :=
    List.take_of_length_le (by simp [h])
  have hdrop : (0x55 :: 0x61 :: payload).drop 22 = [] :=
    List.drop_eq_nil_of_le (by simp [h])
  rw [htake, hdrop, decodeLoop_nil]
  simp

/-- Claim C4: a leading byte that is not the `0x55` sentinel is dropped
alone; a sentinel followed by a byte other than `0x61` loses only the
sentinel; and `[garbage, 0x55, 0x61, <20 payload bytes>]` decodes to
exactly one sample with the garbage byte discarded. -/
theorem decoder_resync (b : ℕ) (rest : List ℕ) :
    (¬ b = 0x55 → decodeLoop (b :: rest) = decodeLoop rest) ∧
    (¬ b = 0x61 → decodeLoop (0x55 :: b :: rest) = decodeLoop (b :: rest)) ∧
    (rest.length = 20 → decodeLoop (b :: 0x55 :: 0x61 :: rest) = ([processData rest], [])) := by
  refine ⟨decodeLoop_skip b rest, decodeLoop_badtype b rest, fun h => ?_⟩
  by_cases hb : b = 0x55
  · subst hb
    rw [decodeLoop_badtype 0x55 (0x61 :: rest) (by decide), decodeLoop_frame rest h]
  · rw [decodeLoop_skip b (0x55 :: 0x61 :: rest) hb, decodeLoop_frame rest h]

/-- Witness for C4 at garbage byte 7 and an all-zero payload. -/
theorem decoder_resync_witness :
    decodeLoop (7 :: 0x55 :: 0x61 :: List.replicate 20 0) =
      ([processData (List.replicate 20 0)], []) :=
  (decoder_resync 7 (List.replicate 20 0)).2.2 (by decide)

/-- Claim C5: the decoder's buffer state persists across `feed` calls, so
feeding any byte sequence in two chunks produces the same samples, and
ends in the same buffer, as feeding the concatenation in one call. -/
theorem decoder_split_feed (c1 c2 : List ℕ) :
    (feed [] c1).1 ++ (feed (feed [] c1).2 c2).1 = (feed [] (c1 ++ c2)).1 ∧
    (feed (feed [] c1).2 c2).2 = (feed [] (c1 ++ c2)).2 := by
  show (decodeLoop c1).1 ++ (decodeLoop ((decodeLoop c1).2 ++ c2)).1 =
      (decodeLoop (c1 ++ c2)).1 ∧
    (decodeLoop ((decodeLoop c1).2 ++ c2)).2 = (decodeLoop (c1 ++ c2)).2
  rw [decodeLoop_append c1 c2]
  exact ⟨rfl, rfl⟩

unseal Rat.add Rat.mul Rat.sub Rat.inv in
/-- Claim C6, counterexample: `processData` stores `round(x, 3)` of each
scaled value, not the exact scaled value.  A frame whose first payload
word is 1 decodes to `AccX = 0`, while the claim's formula
`raw/32768*16` gives `1/2048 ≠ 0`. -/
theorem decoder_field_rounding_counterexample :
    decodeLoop [0x55, 0x61, 1, 0, 0, 0, 0, 0, 0, 0, 0, 0, 0, 0, 0, 0, 0, 0, 0, 0, 0, 0] =
      ([{ AccX := 0, AccY := 0, AccZ := 0, AsX := 0, AsY := 0, AsZ := 0,
          AngX := 0, AngY := 0, AngZ := 0 }], []) ∧
    ¬ ((getSignInt16 1 : ℚ) / 32768 * 16 = 0) := by
  constructor <;> decide

/-- Claim C6 (amended: each of the nine fields is the scaled little-endian
signed 16-bit value **rounded to three decimals** — Python's
`round(x, 3)` — not the exact scaled value): a buffered 22-byte frame
`0x55 0x61 <payload>` emits exactly one sample, removes exactly 22 bytes
(scanning continues on the rest of the buffer), the checksum bytes at
offsets 20–21 never affect the sample, and the fields come from payload
offsets 0,2,4 (accel, `raw/32768*16`), 6,8,10 (gyro, `raw/32768*2000`),
12,14,16 (angles, `raw/32768*180`). -/
theorem decoder_frame_contract (payload rest : List ℕ) (h : payload.length = 20) :
    decodeLoop ((0x55 :: 0x61 :: payload) ++ rest) =
      (processData payload :: (decodeLoop rest).1, (decodeLoop rest).2) ∧
    (∀ c1 c2 : ℕ, processData (payload.take 18 ++ [c1, c2]) = processData payload) ∧
    processData payload =
      { AccX := round3 ((getSignInt16 (word16 payload 0) : ℚ) / 32768 * 16)
        AccY := round3 ((getSignInt16 (word16 payload 2) : ℚ) / 32768 * 16)
        AccZ := round3 ((getSignInt16 (word16 payload 4) : ℚ) / 32768 * 16)
        AsX := round3 ((getSignInt16 (word16 payload 6) : ℚ) / 32768 * 2000)
        AsY := round3 ((getSignInt16 (word16 payload 8) : ℚ) / 32768 * 2000)
        AsZ := round3 ((getSignInt16 (word16 payload 10) : ℚ) / 32768 * 2000)
        AngX := round3 ((getSignInt16 (word16 payload 12) : ℚ) / 32768 * 180)
        AngY := round3 ((getSignInt16 (word16 payload 14) : ℚ) / 32768 * 180)
        AngZ := round3 ((getSignInt16 (word16 payload 16) : ℚ) / 32768 * 180) } := by
  refine ⟨?_, ?_, rfl⟩
  · rw [decodeLoop_append (0x55 :: 0x61 :: payload) rest, decodeLoop_frame payload h]
    simp
  · intro c1 c2
    apply processData_eq_of_take18
    have hl : 18 ≤ (payload.take 18).length := by simp [h]
    rw [List.take_append_of_le_length hl, List.take_take]
    simp

/-- Witness for the amended C6 at an all-zero payload followed by a stray
byte left in the buffer. -/
theorem decoder_frame_contract_witness :
    decodeLoop ((0x55 :: 0x61 :: List.replicate 20 0) ++ [7]) =
      (processData (List.replicate 20 0) :: (decodeLoop [7]).1, (decodeLoop [7]).2) :=
  (decoder_frame_contract (List.replicate 20 0) [7] (by decide)).1

namespace LogicController

theorem obstacle_fold_step_isSome (angle_range max_dist_mm : ℚ) (acc : Option ℚ) (p : ℚ × ℚ) :
    (obstacle_fold angle_range max_dist_mm acc p).isSome = true ↔
      acc.isSome = true ∨
      (((0 ≤ p.1 ∧ p.1 ≤ angle_range) ∨ (360 - angle_range ≤ p.1 ∧ p.1 < 360)) ∧
        0 < p.2 ∧ p.2 < max_dist_mm) := by
  unfold obstacle_fold
  by_cases h1 : (0 ≤ p.1 ∧ p.1 ≤ angle_range) ∨ (360 - angle_range ≤ p.1 ∧ p.1 < 360)
  · by_cases h2 : 0 < p.2 ∧ p.2 < max_dist_mm
    · rw [if_pos h1, if_pos h2]
      cases acc with
      | none => exact ⟨fun _ => Or.inr ⟨h1, h2⟩, fun _ => rfl⟩
      | some m =>
        refine ⟨fun _ => Or.inr ⟨h1, h2⟩, fun _ => ?_⟩
        show (if p.2 < m then some p.2 else some m).isSome = true
        split <;> rfl
    · rw [if_pos h1, if_neg h2]
      refine ⟨fun h => Or.inl h, ?_⟩
      rintro (h | ⟨_, hd⟩)
      · exact h
      · exact absurd hd h2
  · rw [if_neg h1]
    refine ⟨fun h => Or.inl h, ?_⟩
    rintro (h | ⟨hc, _⟩)
    · exact h
    · exact absurd hc h1

theorem obstacle_fold_isSome (angle_range max_dist_mm : ℚ) :
    ∀ (l : List (ℚ × ℚ)) (acc : Option ℚ),
      (l.foldl (obstacle_fold angle_range max_dist_mm) acc).isSome = true ↔
      acc.isSome = true ∨ ∃ p ∈ l,
        ((0 ≤ p.1 ∧ p.1 ≤ angle_range) ∨ (360 - angle_range ≤ p.1 ∧ p.1 < 360)) ∧
        0 < p.2 ∧ p.2 < max_dist_mm := by
  intro l
  induction l with
  | nil => simp
  | cons p l ih =>
    intro acc
    rw [List.foldl_cons, ih (obstacle_fold angle_range max_dist_mm acc p),
      obstacle_fold_step_isSome angle_range max_dist_mm acc p,
      List.exists_mem_cons_iff]
    exact or_assoc

/-- The safety rule finds an obstacle iff some scan point lies in the
forward cone `[0,30] ∪ [330,360)` with a distance strictly between 0 and
800 mm. -/
theorem gfo_isSome_iff (st : State) :
    (get_frontal_obstacle_distance st 30 (8/10)).isSome = true ↔
    ∃ p ∈ st.lidar_data,
      ((0 ≤ p.1 ∧ p.1 ≤ 30) ∨ (360 - 30 ≤ p.1 ∧ p.1 < 360)) ∧ 0 < p.2 ∧ p.2 < 800 := by
  unfold get_frontal_obstacle_distance
  by_cases hl : st.lidar_data = []
  · simp [hl]
  · rw [if_neg hl, Option.isSome_map',
      obstacle_fold_isSome 30 ((8:ℚ)/10 * 1000) st.lidar_data none]
    have h800 : (8:ℚ)/10 * 1000 = 800 := by norm_num
    rw [h800]
    simp

end LogicController

/-- Claim C1: in MANUAL mode, when the latest scan has a point in the
forward cone `[0,30] ∪ [330,360)` with `0 < distance < 800` mm and the
intent's throttle is positive, the final command is throttle 0 with the
intent's steer unchanged; in every other case (no such point, or
throttle ≤ 0) the intent passes through unmodified. -/
theorem safety_override (st : LogicController.State) (hmode : st.mode = "MANUAL") :
    ((∃ p ∈ st.lidar_data,
        ((0 ≤ p.1 ∧ p.1 ≤ 30) ∨ (360 - 30 ≤ p.1 ∧ p.1 < 360)) ∧ 0 < p.2 ∧ p.2 < 800) ∧
        0 < st.manual_throttle →
      LogicController.execute_step st = (0, st.manual_steering)) ∧
    (¬ ((∃ p ∈ st.lidar_data,
        ((0 ≤ p.1 ∧ p.1 ≤ 30) ∨ (360 - 30 ≤ p.1 ∧ p.1 < 360)) ∧ 0 < p.2 ∧ p.2 < 800) ∧
        0 < st.manual_throttle) →
      LogicController.execute_step st = (st.manual_throttle, st.manual_steering)) := by
  have hiff := LogicController.gfo_isSome_iff st
  cases hg : LogicController.get_frontal_obstacle_distance st 30 (8/10) with
  | none =>
    have hnex : ¬ (∃ p ∈ st.lidar_data,
        ((0 ≤ p.1 ∧ p.1 ≤ 30) ∨ (360 - 30 ≤ p.1 ∧ p.1 < 360)) ∧ 0 < p.2 ∧ p.2 < 800) := by
      intro hex
      have h := hiff.mpr hex
      rw [hg] at h
      exact absurd h (by simp)
    have hsafe : LogicController.safety_check st = (true, 0, 0) := by
      unfold LogicController.safety_check
      rw [hg]
    have hstep : LogicController.execute_step st = (st.manual_throttle, st.manual_steering) := by
      simp [LogicController.execute_step, LogicController.execute_step_with, hsafe, hmode]
    exact ⟨fun h => absurd h.1 hnex, fun _ => hstep⟩
  | some d =>
    have hex := hiff.mp (by rw [hg]; rfl)
    by_cases hmt : 0 < st.manual_throttle
    · have hsafe : LogicController.safety_check st = (false, 0, st.manual_steering) := by
        unfold LogicController.safety_check
        rw [hg, if_pos hmt]
      have hstep : LogicController.execute_step st = (0, st.manual_steering) := by
        simp [LogicController.execute_step, LogicController.execute_step_with, hsafe]
      exact ⟨fun _ => hstep, fun hc => absurd ⟨hex, hmt⟩ hc⟩
    · have hsafe : LogicController.safety_check st = (true, 0, 0) := by
        unfold LogicController.safety_check
        rw [hg, if_neg hmt]
      have hstep : LogicController.execute_step st = (st.manual_throttle, st.manual_steering) := by
        simp [LogicController.execute_step, LogicController.execute_step_with, hsafe, hmode]
      exact ⟨fun h => absurd h.2 hmt, fun _ => hstep⟩

/-- Witness for C1: the spec's own example — obstacle at angle 10°,
distance 500 mm, throttle 0.5 → (0, steer); same at 1500 mm →
passthrough. -/
theorem safety_override_witness :
    LogicController.execute_step ⟨"MANUAL", 1/2, 1/4, [(10, 500)]⟩ = (0, 1/4) ∧
    LogicController.execute_step ⟨"MANUAL", 1/2, 1/4, [(10, 1500)]⟩ = (1/2, 1/4) := by
  constructor
  · exact (safety_override ⟨"MANUAL", 1/2, 1/4, [(10, 500)]⟩ rfl).1
      ⟨⟨(10, 500), by simp, by norm_num⟩, by norm_num⟩
  · refine (safety_override ⟨"MANUAL", 1/2, 1/4, [(10, 1500)]⟩ rfl).2 ?_
    rintro ⟨⟨p, hp, _, _, hlt⟩, _⟩
    rw [List.mem_singleton] at hp
    subst hp
    norm_num at hlt

/-- Claim C10: the safety rule is evaluated against the stored *manual*
throttle and steering even in AUTO mode: with a qualifying frontal
obstacle, a positive last manual throttle preempts the autonomy output
(whatever it commands) with `(0, manual_steering)`, while a non-positive
one lets the autonomy output through; the deployed autonomy stub
returns `(0, 0)`. -/
theorem auto_mode_safety_uses_manual (st : LogicController.State) (auto : ℚ × ℚ)
    (hmode : st.mode = "AUTO")
    (hobs : ∃ p ∈ st.lidar_data,
      ((0 ≤ p.1 ∧ p.1 ≤ 30) ∨ (360 - 30 ≤ p.1 ∧ p.1 < 360)) ∧ 0 < p.2 ∧ p.2 < 800) :
    (0 < st.manual_throttle →
      LogicController.execute_step_with st auto = (0, st.manual_steering)) ∧
    (st.manual_throttle ≤ 0 →
      LogicController.execute_step_with st auto = auto) ∧
    LogicController.execute_step st = LogicController.execute_step_with st (0, 0) := by
  have hs := (LogicController.gfo_isSome_iff st).mpr hobs
  rw [Option.isSome_iff_exists] at hs
  obtain ⟨d, hg⟩ := hs
  refine ⟨fun hmt => ?_, fun hmt => ?_, rfl⟩
  · have hsafe : LogicController.safety_check st = (false, 0, st.manual_steering) := by
      unfold LogicController.safety_check
      rw [hg, if_pos hmt]
    simp [LogicController.execute_step_with, hsafe]
  · have hmt' : ¬ 0 < st.manual_throttle := not_lt.mpr hmt
    have hsafe : LogicController.safety_check st = (true, 0, 0) := by
      unfold LogicController.safety_check
      rw [hg, if_neg hmt']
    simp [LogicController.execute_step_with, hsafe, hmode]

/-- Witness for C10: obstacle at (10°, 500 mm); an autonomy output of
(0.6, 0) is preempted when the last manual throttle is 0.5 and passes
through when it is 0. -/
theorem auto_mode_safety_uses_manual_witness :
    LogicController.execute_step_with ⟨"AUTO", 1/2, 1/4, [(10, 500)]⟩ (3/5, 0) = (0, 1/4) ∧
    LogicController.execute_step_with ⟨"AUTO", 0, 1/4, [(10, 500)]⟩ (3/5, 0) = (3/5, 0) := by
  constructor
  · exact (auto_mode_safety_uses_manual ⟨"AUTO", 1/2, 1/4, [(10, 500)]⟩ (3/5, 0) rfl
      ⟨(10, 500), by simp, by norm_num⟩).1 (by norm_num)
  · exact (auto_mode_safety_uses_manual ⟨"AUTO", 0, 1/4, [(10, 500)]⟩ (3/5, 0) rfl
      ⟨(10, 500), by simp, by norm_num⟩).2.1 (by norm_num)

unseal Rat.add Rat.mul Rat.sub Rat.inv in
/-- Claim C9, counterexample: at raw = 180, offset = 0 the code publishes
−180, which is outside the claimed interval (−180, 180] and differs from
the spec's wrap180(180) = 180. -/
theorem yaw_wrap_counterexample :
    corrected_yaw 180 0 = -180 ∧ wrap180_spec (180 + 0) = 180 ∧
    corrected_yaw 180 0 ≠ wrap180_spec (180 + 0) ∧ ¬ (-180 < corrected_yaw 180 0) := by
  refine ⟨?_, ?_, ?_, ?_⟩ <;> decide

theorem pymod_eq_mul_fract (a b : ℚ) (hb : b ≠ 0) :
    pymod a b = b * Int.fract (a / b) := by
  unfold pymod Int.fract
  field_simp

theorem pymod_nonneg_of_pos (a b : ℚ) (hb : 0 < b) : 0 ≤ pymod a b := by
  rw [pymod_eq_mul_fract a b (ne_of_gt hb)]
  exact mul_nonneg (le_of_lt hb) (Int.fract_nonneg _)

theorem pymod_lt_of_pos (a b : ℚ) (hb : 0 < b) : pymod a b < b := by
  rw [pymod_eq_mul_fract a b (ne_of_gt hb)]
  calc b * Int.fract (a / b) < b * 1 :=
        mul_lt_mul_of_pos_left (Int.fract_lt_one _) hb
    _ = b := mul_one b

/-- Claim C9 (amended: the published corrected yaw is `raw + offset`
reduced modulo 360 into the interval `[-180, 180)` — closed at −180 and
open at 180 — not `(-180, 180]`): it equals
`((raw + offset + 180) mod 360) - 180`, is congruent to `raw + offset`
modulo 360, and satisfies `-180 ≤ corrected < 180`. -/
theorem yaw_calibration (raw_yaw yaw_offset : ℚ) :
    corrected_yaw raw_yaw yaw_offset = pymod (raw_yaw + yaw_offset + 180) 360 - 180 ∧
    -180 ≤ corrected_yaw raw_yaw yaw_offset ∧
    corrected_yaw raw_yaw yaw_offset < 180 ∧
    ∃ k : ℤ, corrected_yaw raw_yaw yaw_offset = raw_yaw + yaw_offset - 360 * k := by
  have h0 := pymod_nonneg_of_pos (raw_yaw + yaw_offset + 180) 360 (by norm_num)
  have h1 := pymod_lt_of_pos (raw_yaw + yaw_offset + 180) 360 (by norm_num)
  refine ⟨rfl, ?_, ?_, ⟨⌊(raw_yaw + yaw_offset + 180) / 360⌋, ?_⟩⟩
  · unfold corrected_yaw
    linarith
  · unfold corrected_yaw
    linarith
  · unfold corrected_yaw pymod
    ring

/-! ## Claim C2 — emergency stop is terminal and shuts the sinks down -/

theorem handle_event_running (s : AppState) (e : Event) :
    (handle_event s e).running = true → s.running = true := by
  cases e <;> simp only [handle_event] <;> split_ifs <;> simp_all

theorem running_false_foldl (l : List Event) : ∀ s : AppState, s.running = false →
    (l.foldl handle_event s).running = false := by
  induction l with
  | nil => exact fun s h => h
  | cons e l ih =>
    intro s h
    rw [List.foldl_cons]
    cases hb : (handle_event s e).running with
    | false => exact ih _ hb
    | true => exact absurd (handle_event_running s e hb) (by simp [h])

theorem estop_foldl (m : String) : ∀ (l : List Event) (s : AppState),
    Event.sys ACTION_E_STOP m ∈ l → (l.foldl handle_event s).running = false := by
  intro l
  induction l with
  | nil => exact fun s h => absurd h (List.not_mem_nil _)
  | cons e l ih =>
    intro s h
    rw [List.foldl_cons]
    rcases List.mem_cons.mp h with he | hm
    · have hrun : (handle_event s e).running = false := by
        rw [← he]
        simp [handle_event]
      exact running_false_foldl l _ hrun
    · exact ih (handle_event s e) hm

theorem loop_run_stopped (n : ℕ) (st : AppState) (evs : ℕ → List Event) (gate : ℕ → Bool)
    (h : st.running = false) : loop_run n st evs gate = (0, []) := by
  cases n <;> simp [loop_run, h]

theorem button_reset_input_source (st : AppState) :
    (button_reset st).input_source = st.input_source := by
  unfold button_reset
  split <;> rfl

theorem tick_fst (st : AppState) (events : List Event) (g : Bool) :
    (tick st events g).1 = poll_step (button_reset st) events := by
  cases g <;> rfl

theorem poll_step_estop (st : AppState) (events : List Event) (m : String)
    (hsrc : st.input_source.isSome = true) (hev : Event.sys ACTION_E_STOP m ∈ events) :
    (poll_step st events).running = false := by
  unfold poll_step
  obtain ⟨s, hs⟩ := Option.isSome_iff_exists.mp hsrc
  rw [hs]
  exact estop_foldl m events st hev

theorem tick_estop (st : AppState) (events : List Event) (g : Bool) (m : String)
    (hsrc : st.input_source.isSome = true) (hev : Event.sys ACTION_E_STOP m ∈ events) :
    (tick st events g).1.running = false := by
  rw [tick_fst]
  exact poll_step_estop (button_reset st) events m
    (by rw [button_reset_input_source]; exact hsrc) hev

/-- Claim C2: once an emergency-stop event is handled, the loop is
terminal — `handle_event` can never turn `running` back on, a stopped
loop runs zero further ticks, the tick that handled the e-stop is the
last one — and the `finally` shutdown ends the write trace with the
all-sinks-safe sequence: motors stopped, servo pulse released, pigpio
disconnected, keyboard closed. -/
theorem estop_fail_stop (st : AppState) (evs : ℕ → List Event) (gate : ℕ → Bool)
    (fuel : ℕ) (m : String)
    (hsrc : st.input_source.isSome = true)
    (hev : Event.sys ACTION_E_STOP m ∈ evs 0) :
    (∀ (s : AppState) (e : Event), (handle_event s e).running = true → s.running = true) ∧
    (∀ (n : ℕ) (s : AppState), s.running = false → loop_run n s evs gate = (0, [])) ∧
    (loop_hw (fuel + 1) st evs gate true).1 = 1 ∧
    (∃ pre, (loop_hw (fuel + 1) st evs gate true).2 = pre ++ cleanup_cmds) ∧
    cleanup_cmds =
      [SinkCmd.motorWrite [0, 0, 0, 0], SinkCmd.servoPulse 0,
       SinkCmd.pigpioStop, SinkCmd.keyboardClose] := by
  have hsrc' : ({ st with running := true } : AppState).input_source.isSome = true := hsrc
  have htick := tick_estop { st with running := true } (evs 0) (gate 0) m hsrc' hev
  have hloop : loop_run (fuel + 1) { st with running := true } evs gate =
      (1, (tick { st with running := true } (evs 0) (gate 0)).2) := by
    simp [loop_run, loop_run_stopped fuel _ _ _ htick]
  refine ⟨handle_event_running, fun n s h => loop_run_stopped n s _ _ h, ?_, ?_, rfl⟩
  · unfold loop_hw
    rw [if_pos rfl, hloop]
  · unfold loop_hw
    rw [if_pos rfl, hloop]
    exact ⟨(tick { st with running := true } (evs 0) (gate 0)).2, rfl⟩

/-- Witness for C2: a joystick-bound state polling an e-stop event stops
after one tick and the trace ends with the safe-shutdown writes. -/
theorem estop_fail_stop_witness :
    (loop_hw 4 ⟨0, 0, 0, MODE_JOYSTICK, false, some InputSrc.joystick⟩
      (fun _ => [Event.sys ACTION_E_STOP MODE_SENSOR]) (fun _ => true) true).1 = 1 ∧
    (∃ pre, (loop_hw 4 ⟨0, 0, 0, MODE_JOYSTICK, false, some InputSrc.joystick⟩
      (fun _ => [Event.sys ACTION_E_STOP MODE_SENSOR]) (fun _ => true) true).2 =
        pre ++ cleanup_cmds) := by
  have h := estop_fail_stop ⟨0, 0, 0, MODE_JOYSTICK, false, some InputSrc.joystick⟩
    (fun _ => [Event.sys ACTION_E_STOP MODE_SENSOR]) (fun _ => true) 3 MODE_SENSOR
    rfl (List.mem_singleton.mpr rfl)
  exact ⟨h.2.2.1, h.2.2.2.1⟩

/-! ## Claims C7, C8 — mode arbitration and the manual-axis path -/

unseal Rat.add Rat.mul Rat.sub Rat.inv in
/-- Claim C7, counterexample: a set-mode request for the unbound SENSOR
mode does not zero the intent.  From speed 0.5 the app adopts the mode,
unbinds the input source and keeps speed 0.5, and the next tick still
commands `write_lr 25 25` (not the all-zero command); and
`LogicController.set_mode` leaves the mode unchanged on an unknown mode
instead of entering a DISABLED state. -/
theorem unknown_mode_not_zeroed :
    handle_event ⟨1/2, 0, 0, MODE_JOYSTICK, true, some InputSrc.joystick⟩
        (Event.sys ACTION_SET_MODE MODE_SENSOR) =
      ⟨1/2, 0, 0, MODE_SENSOR, true, none⟩ ∧
    (tick ⟨1/2, 0, 0, MODE_SENSOR, true, none⟩ [] true).2 =
      [SinkCmd.servoPulse 1500, write_lr 25 25] ∧
    write_lr 25 25 ≠ write_lr 0 0 := by
  refine ⟨?_, ?_, ?_⟩ <;> decide

/-- Claim C7 (amended: an unrecognized set-mode request does *not* enter
a zero-intent DISABLED state.  In `app_rpi` the requested mode string is
adopted, the input source is unbound and a warning is logged, but the
stored speed/steer persist, so every subsequent tick keeps commanding
`mix(speed, steer)` and the current servo angle; in
`logic_controller.set_mode` an unknown mode leaves the mode unchanged). -/
theorem unknown_mode_behavior (st : AppState) (m : String)
    (hb : ¬ m = MODE_BUTTON) (hj : ¬ m = MODE_JOYSTICK) (hne : ¬ st.mode = m) :
    handle_event st (Event.sys ACTION_SET_MODE m) =
      { st with mode := m, input_source := none } ∧
    (∀ (st' : AppState) (events : List Event),
      st'.input_source = none → ¬ st'.mode = MODE_BUTTON →
      (tick st' events true).2 =
        [SinkCmd.servoPulse (angle_to_us (90 + st'.rx * 80)),
         write_lr (pytrunc ((mix_skid st'.speed st'.steer).1 * (MAX_MOTOR_SPEED : ℚ)))
                  (pytrunc ((mix_skid st'.speed st'.steer).2 * (MAX_MOTOR_SPEED : ℚ)))]) ∧
    (∀ (lc : LogicController.State) (mode : String),
      ¬ mode = "MANUAL" → ¬ mode = "AUTO" → LogicController.set_mode lc mode = lc) := by
  refine ⟨?_, ?_, ?_⟩
  · simp only [handle_event]
    rw [if_neg (by decide)]
    simp [hne, hb, hj]
  · intro st' events h0 hbm
    unfold tick poll_step button_reset
    rw [if_neg hbm, h0]
    rfl
  · intro lc mode h1 h2
    unfold LogicController.set_mode
    rw [if_neg (by simp [h1, h2])]

/-- Witness for the amended C7 at the counterexample's input. -/
theorem unknown_mode_behavior_witness :
    handle_event ⟨1/2, 0, 0, MODE_JOYSTICK, true, some InputSrc.joystick⟩
        (Event.sys ACTION_SET_MODE MODE_SENSOR) =
      ⟨1/2, 0, 0, MODE_SENSOR, true, none⟩ :=
  (unknown_mode_behavior ⟨1/2, 0, 0, MODE_JOYSTICK, true, some InputSrc.joystick⟩
    MODE_SENSOR (by decide) (by decide) (by decide)).1

unseal Rat.add Rat.mul Rat.sub Rat.inv in
/-- Claim C8, counterexample: `handle_event` negates the axes
(`speed = -y`, `steer = -x`), so the axis event {x:-0.5, y:0.8, rx:0}
makes the drivetrain receive the integer conversion of
`mix(-0.8, 0.5) = (-3/13, -1)`, i.e. `write_lr (-11) (-50)` — not the
claimed `mix(0.8, -0.5)`, whose conversion is `(11, 50)`. -/
theorem manual_axis_example_inverted :
    (tick ⟨0, 0, 0, MODE_JOYSTICK, true, some InputSrc.joystick⟩
        [Event.axis (-(1/2)) (4/5) 0] true).2 =
      [SinkCmd.servoPulse 1500, write_lr (-11) (-50)] ∧
    write_lr (-11) (-50) ≠ write_lr 11 50 ∧
    pytrunc ((mix_skid (4/5) (-(1/2))).1 * (MAX_MOTOR_SPEED : ℚ)) = 11 ∧
    pytrunc ((mix_skid (4/5) (-(1/2))).2 * (MAX_MOTOR_SPEED : ℚ)) = 50 := by
  refine ⟨?_, ?_, ?_, ?_⟩ <;> decide

/-- Claim C8 (amended: the handler *negates* both stick axes — the axis
event {x, y, rx} stores speed = −y, steer = −x — and the drivetrain is
written in the same tick only when the rate gate is due): in JOYSTICK
mode, handling {x:-0.5, y:0.8, rx:0} stores speed −0.8, steer 0.5, and
the tick writes the servo angle for rx and, when the gate is due, the
integer-converted `mix(-y, -x)` to the drivetrain. -/
theorem manual_axis_tick (st : AppState) (x y rxv : ℚ) (g : Bool)
    (hmode : st.mode = MODE_JOYSTICK) (hsrc : st.input_source.isSome = true) :
    handle_event st (Event.axis x y rxv) =
      { st with speed := -y, steer := -x, rx := rxv } ∧
    (tick st [Event.axis x y rxv] g).2 =
      (if g then
        [SinkCmd.servoPulse (angle_to_us (90 + rxv * 80)),
         write_lr (pytrunc ((mix_skid (-y) (-x)).1 * (MAX_MOTOR_SPEED : ℚ)))
                  (pytrunc ((mix_skid (-y) (-x)).2 * (MAX_MOTOR_SPEED : ℚ)))]
      else [SinkCmd.servoPulse (angle_to_us (90 + rxv * 80))]) := by
  have h1 : handle_event st (Event.axis x y rxv) =
      { st with speed := -y, steer := -x, rx := rxv } := by
    simp only [handle_event]
    rw [if_pos hmode]
  refine ⟨h1, ?_⟩
  have hbr : button_reset st = st := by
    unfold button_reset
    rw [if_neg (by rw [hmode]; decide)]
  have hps : poll_step st [Event.axis x y rxv] =
      handle_event st (Event.axis x y rxv) := by
    unfold poll_step
    obtain ⟨s, hs⟩ := Option.isSome_iff_exists.mp hsrc
    rw [hs]
    rfl
  unfold tick
  rw [hbr, hps, h1]
  cases g <;> rfl

/-- Witness for the amended C8 at the spec's axis event
{x:-0.5, y:0.8, rx:0}. -/
theorem manual_axis_tick_witness :
    handle_event ⟨0, 0, 0, MODE_JOYSTICK, true, some InputSrc.joystick⟩
        (Event.axis (-(1/2)) (4/5) 0) =
      ⟨-(4/5), -(-(1/2)), 0, MODE_JOYSTICK, true, some InputSrc.joystick⟩ :=
  (manual_axis_tick ⟨0, 0, 0, MODE_JOYSTICK, true, some InputSrc.joystick⟩
    (-(1/2)) (4/5) 0 true rfl rfl).1
